import Mathlib

/-!
Shallow embedding of the mod-union table and RosAlloc space subsystem of the
cheri-art runtime excerpt (src/runtime/gc/accounting/mod_union_table.cc,
src/runtime/gc/space/rosalloc_space.cc, with interfaces from
src/runtime/gc/space/space.h and src/runtime/globals.h).

Addresses are modelled as natural numbers; the null pointer is 0.  A card is
identified by its card index (the card-table byte for addresses
[index * kCardSize, (index + 1) * kCardSize)); in the C++ the card is named by
the address of that byte, which is in bijection with the index.  The card
table itself, the live bitmap and object layout are modelled as functions,
and the STL containers used by the tables (std::set for CardSet, std::map for
SafeMap, std::vector for reference arrays) are modelled as sorted unique
lists, sorted unique association lists, and plain lists respectively.
-/

namespace ArtGC

/-- Card state per the spec's data model: each card-table byte encodes a
dirty/clean/aged tri-state.  The numeric byte values (kCardClean, kCardDirty,
the aged intermediate) live in card_table.h, which is not part of the
excerpt; only the three-way distinction matters to the code under analysis. -/
inductive CardState where
  | clean
  | dirty
  | aged
deriving DecidableEq, Repr

/-- Card size in bytes.  Modelled from the spec: "a fixed-size (conventionally
a power-of-two byte count, e.g. 512 bytes) quantum of heap address space";
the concrete constant lives in card_table.h, outside the excerpt. -/
def kCardSize : Nat := 512

/-- From src/runtime/globals.h line 60: static constexpr int kPageSize = 4096. -/
def kPageSize : Nat := 4096

/-- Modelled from the spec: AgeCardVisitor (card_table.h, not under src/) is
the age_fn of the clearing pass, "used to move Dirty→Aged" with lifecycle
"Dirty→Aged→Clean during a collection's clearing pass"; a Clean card stays
Clean. -/
def AgeCardVisitor : CardState → CardState
  | .dirty => .aged
  | .aged => .clean
  | .clean => .clean

/-- The card indices whose card overlaps the address range [b, e). -/
def cardsInRange (b e : Nat) : List Nat :=
  if e ≤ b then [] else List.range' (b / kCardSize) ((e - 1) / kCardSize + 1 - b / kCardSize)

/-- Ordered unique insertion, modelling std::set::insert for
ModUnionTable::CardSet (a std::set of card addresses: spec, "a set of card
addresses ... keys unique"; iteration of a std::set of addresses is in
increasing address order). -/
def cardSetInsert : List Nat → Nat → List Nat
  | [], c => [c]
  | x :: xs, c =>
    if c < x then c :: x :: xs
    else if c = x then x :: xs
    else x :: cardSetInsert xs c

/-- Lookup in a sorted association list modelling SafeMap / std::map
(mod_union_table.h's references map from card address to reference vector). -/
def refsLookup : List (Nat × List Nat) → Nat → Option (List Nat)
  | [], _ => none
  | p :: ps, c => if p.1 = c then some p.2 else refsLookup ps c

/-- Sorted insert-or-replace on the association list, modelling both
SafeMap::Put (fresh key) and assignment through an iterator (existing key). -/
def refsSet : List (Nat × List Nat) → Nat → List Nat → List (Nat × List Nat)
  | [], c, v => [(c, v)]
  | p :: ps, c, v =>
    if c < p.1 then (c, v) :: p :: ps
    else if c = p.1 then (c, v) :: ps
    else p :: refsSet ps c v

/-- Combined state of a mod-union table together with the pieces of the heap
it reads: the card table restricted to card indices, the source space bounds
(space_->Begin(), space_->End()), the cleared-card set, the references map
(reference-cache variant only), heap memory as a map from slot address to
stored reference (0 = null), the source space's live bitmap as the list of
live object base addresses, per-object reference-field offsets
(MarkSweep::VisitObjectReferences), the AddReference policy predicate, and
the heap-wide liveness test Heap::IsLiveObjectLocked. -/
structure MUState where
  cardTable : Nat → CardState
  spaceBegin : Nat
  spaceEnd : Nat
  cleared : List Nat
  references : List (Nat × List Nat)
  heap : Nat → Nat
  live : List Nat
  fields : Nat → List Nat
  addRef : Nat → Nat → Bool
  heapLive : Nat → Bool

/-- From mod_union_table.cc lines 40-54: ModUnionClearCardSetVisitor inserts
the card into the cleared-card set exactly when the expected (old) value was
kCardDirty; the new value is ignored. -/
def ModUnionClearCardSetVisitor (acc : List Nat) (card : Nat)
    (expectedValue : CardState) (_newValue : CardState) : List Nat :=
  if expectedValue = CardState.dirty then cardSetInsert acc card else acc

/-- Modelled from the spec: CardTable::ModifyCardsAtomic (card_table.h, not
under src/): "for every card fully or partially overlapping [begin,end),
atomically read the current byte, compute a new value via age_fn, write it
back ..., and ... pass the card's address to dirty_visitor" together with the
old and new values (the visitor in src/ takes (card, expected_value,
new_value)).  Sequential model: every card reads its pre-call value. -/
def ModifyCardsAtomic {A : Type} (ct : Nat → CardState) (b e : Nat)
    (ageFn : CardState → CardState)
    (visitorFn : A → Nat → CardState → CardState → A) (acc : A) :
    (Nat → CardState) × A :=
  let cs := cardsInRange b e
  (fun c => if c ∈ cs then ageFn (ct c) else ct c,
   cs.foldl (fun a c => visitorFn a c (ct c) (ageFn (ct c))) acc)

/-- Shared body of ModUnionTableReferenceCache::ClearCards (lines 113-118)
and ModUnionTableCardCache::ClearCards (lines 312-317), which are
token-identical: run the atomic transform over [Begin, End) with
AgeCardVisitor and ModUnionClearCardSetVisitor on cleared_cards_. -/
def clearCardsImpl (st : MUState) : MUState :=
  let r := ModifyCardsAtomic st.cardTable st.spaceBegin st.spaceEnd
    AgeCardVisitor ModUnionClearCardSetVisitor st.cleared
  { st with cardTable := r.1, cleared := r.2 }

/-- ModUnionTableReferenceCache::ClearCards, mod_union_table.cc lines 113-118. -/
def ModUnionTableReferenceCache.ClearCards (st : MUState) : MUState :=
  clearCardsImpl st

/-- ModUnionTableCardCache::ClearCards, mod_union_table.cc lines 312-317. -/
def ModUnionTableCardCache.ClearCards (st : MUState) : MUState :=
  clearCardsImpl st

/-- The live objects whose base address lies in the address range of a card:
live_bitmap->VisitMarkedRange(AddrFromCard(card), AddrFromCard(card) +
kCardSize, visitor) visits exactly the marked objects of that range. -/
def liveInCard (st : MUState) (card : Nat) : List Nat :=
  st.live.filter fun o =>
    decide (card * kCardSize ≤ o ∧ o < card * kCardSize + kCardSize)

/-- The reference array recomputed for one card by the
live_bitmap->VisitMarkedRange(start, end, add_visitor) pass of
UpdateAndMarkReferences (lines 270-278): ModUnionReferenceVisitor runs
AddToReferenceArrayVisitor (lines 120-141) over every reference field of
every live object under the card, pushing the field's slot address
obj->GetFieldObjectAddr(offset) exactly when the stored reference is non-null
and AddReference(obj, ref) accepts it. -/
def cardRefs (st : MUState) (card : Nat) : List Nat :=
  (liveInCard st card).flatMap fun o =>
    (st.fields o).filterMap fun off =>
      if st.heap (o + off) ≠ 0 ∧ st.addRef o (st.heap (o + off)) then some (o + off)
      else none

/-- Updating one card's entry in the references map, mod_union_table.cc lines
280-290: a card with no existing entry and an empty recomputed array is
skipped; otherwise the entry is created (SafeMap::Put) or overwritten
(found->second = cards_references). -/
def updateCardEntry (refs : List (Nat × List Nat)) (card : Nat) (v : List Nat) :
    List (Nat × List Nat) :=
  match refsLookup refs card with
  | none => if v = [] then refs else refsSet refs card v
  | some _ => refsSet refs card v

/-- One step of the slot-visiting pass shared by
ModUnionTableReferenceCache::UpdateAndMarkReferences lines 294-304 (obj =
*obj_ptr; if non-null, call the visitor and write back only a changed
result) and ModUnionUpdateObjectReferencesVisitor lines 79-88 (same logic on
the field slot obj + offset).  The accumulator carries the heap and the
trace of objects the RootVisitor was invoked on. -/
def markVisitStep (visitor : Nat → Nat) (acc : (Nat → Nat) × List Nat) (slot : Nat) :
    (Nat → Nat) × List Nat :=
  let obj := acc.1 slot
  if obj ≠ 0 then
    let newObj := visitor obj
    (if newObj ≠ obj then fun a => if a = slot then newObj else acc.1 a else acc.1,
     acc.2 ++ [obj])
  else acc

/-- The post-recomputation visiting pass of
ModUnionTableReferenceCache::UpdateAndMarkReferences (lines 293-306): every
slot of every entry of references_, in map order. -/
def markVisitPass (visitor : Nat → Nat) (refs : List (Nat × List Nat))
    (heap : Nat → Nat) : (Nat → Nat) × List Nat :=
  refs.foldl (fun acc p => p.2.foldl (markVisitStep visitor) acc) (heap, [])

/-- ModUnionTableReferenceCache::UpdateAndMarkReferences, mod_union_table.cc
lines 263-310, instrumented with the trace of objects passed to the
RootVisitor: recompute the entry of every card in cleared_cards_, empty
cleared_cards_, then visit every recorded slot. -/
def ModUnionTableReferenceCache.UpdateAndMarkReferencesTrace (visitor : Nat → Nat)
    (st : MUState) : MUState × List Nat :=
  let refs1 := st.cleared.foldl (fun r card => updateCardEntry r card (cardRefs st card))
    st.references
  let pass := markVisitPass visitor refs1 st.heap
  ({ st with references := refs1, cleared := [], heap := pass.1 }, pass.2)

/-- ModUnionTableReferenceCache::UpdateAndMarkReferences, mod_union_table.cc
lines 263-310 (the returned state; the C++ function returns void and mutates
in place). -/
def ModUnionTableReferenceCache.UpdateAndMarkReferences (visitor : Nat → Nat)
    (st : MUState) : MUState :=
  (ModUnionTableReferenceCache.UpdateAndMarkReferencesTrace visitor st).1

/-- ModUnionTableCardCache::UpdateAndMarkReferences, mod_union_table.cc lines
319-329, instrumented with the visitor trace: for each card in
cleared_cards_, ModUnionScanImageRootVisitor walks every live object under
the card and ModUnionUpdateObjectReferencesVisitor handles each reference
field; cleared_cards_ is not modified. -/
def ModUnionTableCardCache.UpdateAndMarkReferencesTrace (visitor : Nat → Nat)
    (st : MUState) : (Nat → Nat) × List Nat :=
  st.cleared.foldl
    (fun acc card =>
      (liveInCard st card).foldl
        (fun acc2 o =>
          (st.fields o).foldl (fun acc3 off => markVisitStep visitor acc3 (o + off)) acc2)
        acc)
    (st.heap, [])

/-- ModUnionTableCardCache::UpdateAndMarkReferences, mod_union_table.cc lines
319-329 (the returned state). -/
def ModUnionTableCardCache.UpdateAndMarkReferences (visitor : Nat → Nat)
    (st : MUState) : MUState :=
  { st with heap := (ModUnionTableCardCache.UpdateAndMarkReferencesTrace visitor st).1 }

/-- ModUnionTableReferenceCache::Verify, mod_union_table.cc lines 217-240,
as a boolean: true when the pass completes, false when a CHECK fails or
CheckReferenceVisitor (lines 164-195) reaches LOG(FATAL), i.e. the process
aborts after logging and Heap::DumpSpaces.  First loop: every recorded slot's
current referent satisfies Heap::IsLiveObjectLocked.  Second loop: for every
entry whose card byte is kCardClean, every non-null AddReference-accepted
reference of every live object under the card must be among the entry's
recorded referents (the reference_set of dereferenced slots). -/
def ModUnionTableReferenceCache.Verify (st : MUState) : Bool :=
  (st.references.all fun p => p.2.all fun slot => st.heapLive (st.heap slot)) &&
  (st.references.all fun p =>
    if st.cardTable p.1 = CardState.clean then
      (liveInCard st p.1).all fun o =>
        (st.fields o).all fun off =>
          !(decide (st.heap (o + off) ≠ 0 ∧ st.addRef o (st.heap (o + off)) ∧
              st.heap (o + off) ∉ p.2.map st.heap))
    else true)

/-- Modelled from the spec: CardTable::MarkCard (card_table.h, not under
src/) — "mark(address) sets the card containing address to Dirty".  The card
containing an address is the one indexed address / kCardSize. -/
def markCard (st : MUState) (addr : Nat) : MUState :=
  { st with
    cardTable := fun c =>
      if c = addr / kCardSize then CardState.dirty else st.cardTable c }

/-- The cards of the source region observed Dirty by one pass of the atomic
transform, in the address order in which ModifyCardsAtomic scans them: the
discovery sequence of one ClearCards call. -/
def dirtyCardsInRange (st : MUState) : List Nat :=
  (cardsInRange st.spaceBegin st.spaceEnd).filter fun c =>
    decide (st.cardTable c = CardState.dirty)

/-- The allocator state visible through the RosAlloc interface used by
rosalloc_space.cc: Footprint() (realized committed bytes) and
FootprintLimit() with its raw setter SetFootprintLimit (rosalloc.h is not
under src/; the fields are exactly the two accessors the space calls). -/
structure RosAlloc where
  footprint : Nat
  footprintLimit : Nat
deriving DecidableEq, Repr

/-- RosAlloc::SetFootprintLimit: the allocator's own raw setter. -/
def RosAlloc.SetFootprintLimit (r : RosAlloc) (n : Nat) : RosAlloc :=
  { r with footprintLimit := n }

/-- RosAlloc::Footprint. -/
def RosAlloc.Footprint (r : RosAlloc) : Nat :=
  r.footprint

/-- RosAlloc::FootprintLimit. -/
def RosAlloc.FootprintLimit (r : RosAlloc) : Nat :=
  r.footprintLimit

/-- RosAllocSpace state (rosalloc_space.cc lines 39-45 together with the
ContinuousSpace fields of src/runtime/gc/space/space.h lines 239-260):
the allocator, Begin(), End(), Limit() and the growth limit. -/
structure RosAllocSpace where
  rosalloc : RosAlloc
  spaceBegin : Nat
  spaceEnd : Nat
  spaceLimit : Nat
  growthLimit : Nat
deriving DecidableEq, Repr

/-- Space::Capacity, src/runtime/gc/space/space.h lines 272-274:
Limit() - Begin(). -/
def RosAllocSpace.Capacity (sp : RosAllocSpace) : Nat :=
  sp.spaceLimit - sp.spaceBegin

/-- RosAllocSpace::GetFootprint, rosalloc_space.cc lines 237-240. -/
def RosAllocSpace.GetFootprint (sp : RosAllocSpace) : Nat :=
  sp.rosalloc.Footprint

/-- RosAllocSpace::GetFootprintLimit, rosalloc_space.cc lines 242-245. -/
def RosAllocSpace.GetFootprintLimit (sp : RosAllocSpace) : Nat :=
  sp.rosalloc.FootprintLimit

/-- RosAllocSpace::SetFootprintLimit, rosalloc_space.cc lines 247-258: a
request below the allocator's current Footprint() is raised to that
footprint before being handed to RosAlloc::SetFootprintLimit. -/
def RosAllocSpace.SetFootprintLimit (sp : RosAllocSpace) (newSize : Nat) : RosAllocSpace :=
  let currentSpaceSize := sp.rosalloc.Footprint
  let newSize2 := if newSize < currentSpaceSize then currentSpaceSize else newSize
  { sp with rosalloc := sp.rosalloc.SetFootprintLimit newSize2 }

/-- RosAllocSpace::AllocWithGrowth, rosalloc_space.cc lines 125-142,
parameterized by allocFn, the behaviour of AllocWithoutGrowthLocked (not
under src/): raise the allocator's footprint limit to Capacity(), try the
allocation, then set the limit to the allocator's self-reported Footprint(). -/
def RosAllocSpace.AllocWithGrowth (sp : RosAllocSpace)
    (allocFn : Nat → RosAlloc → Option Nat × RosAlloc) (numBytes : Nat) :
    Option Nat × RosAllocSpace :=
  let maxAllowed := sp.Capacity
  let r1 := sp.rosalloc.SetFootprintLimit maxAllowed
  let ar := allocFn numBytes r1
  let footprint := ar.2.Footprint
  let r3 := ar.2.SetFootprintLimit footprint
  (ar.1, { sp with rosalloc := r3 })

/-- RosAllocSpace::CreateRosAlloc, rosalloc_space.cc lines 101-119,
parameterized by the outcome of the RosAlloc constructor (rosalloc.h is not
under src/): on success the initial footprint limit is set to initial_size;
a null allocator is logged (PLOG) and returned as null. -/
def RosAllocSpace.CreateRosAlloc (newResult : Option RosAlloc) (initialSize : Nat) :
    Option RosAlloc :=
  match newResult with
  | some r => some (r.SetFootprintLimit initialSize)
  | none => none

/-- Outcome of RosAllocSpace::Create: a fatal CHECK abort, a logged null
return, or a constructed space. -/
inductive CreateResult where
  | fatal
  | nullSpace (msg : String)
  | created (sp : RosAllocSpace)
deriving DecidableEq, Repr

/-- RosAllocSpace::Create, rosalloc_space.cc lines 47-99, parameterized by
the outcome of MemMap::Create (memMapResult, the map's Begin() address on
success; mem_map.h is not under src/), the RosAlloc constructor outcome
handed to CreateRosAlloc, and the mprotect outcome.  A failed mem map or a
null allocator is logged (LOG(ERROR)) and NULL is returned; a failed
mprotect on the tail beyond the initial size trips CHECK_MEMORY_CALL, which
aborts.  On success the space spans [Begin, Begin + capacity) with End at
Begin + starting_size where starting_size = kPageSize. -/
def RosAllocSpace.Create (memMapResult : Option Nat) (newResult : Option RosAlloc)
    (mprotectOk : Bool) (initialSize growthLimit capacity : Nat) : CreateResult :=
  match memMapResult with
  | none => CreateResult.nullSpace "Failed to create mem map for alloc space"
  | some b =>
    match RosAllocSpace.CreateRosAlloc newResult initialSize with
    | none => CreateResult.nullSpace "Failed to initialize rosalloc for alloc space"
    | some ros =>
      if capacity - initialSize > 0 ∧ mprotectOk = false then CreateResult.fatal
      else
        CreateResult.created
          { rosalloc := ros, spaceBegin := b, spaceEnd := b + kPageSize,
            spaceLimit := b + capacity, growthLimit := growthLimit }

/-- A concrete table state used to evaluate the theorems on a small input:
one card-sized source region pair (cards 0 and 1), one live object at 512
with a single reference field at offset 8 holding 9000, an AddReference
policy accepting targets at or beyond 2048, and a stale entry for card 1. -/
def sampleMU : MUState where
  cardTable := fun _ => CardState.clean
  spaceBegin := 0
  spaceEnd := 1024
  cleared := [1]
  references := [(1, [40])]
  heap := fun a => if a = 520 then 9000 else 0
  live := [512]
  fields := fun o => if o = 512 then [8] else []
  addRef := fun _ r => decide (r ≥ 2048)
  heapLive := fun _ => true

/-- A minimal card-cache table state over the same two-card region, with an
empty heap: only the card table and cleared set matter. -/
def sampleCardCache : MUState where
  cardTable := fun _ => CardState.clean
  spaceBegin := 0
  spaceEnd := 1024
  cleared := []
  references := []
  heap := fun _ => 0
  live := []
  fields := fun _ => []
  addRef := fun _ _ => false
  heapLive := fun _ => false

lemma mem_cardSetInsert (s : List Nat) (c a : Nat) :
    a ∈ cardSetInsert s c ↔ a = c ∨ a ∈ s := by
  induction s with
  | nil => simp [cardSetInsert]
  | cons x xs ih =>
    unfold cardSetInsert
    by_cases h1 : c < x
    · rw [if_pos h1]
      simp only [List.mem_cons]
    · rw [if_neg h1]
      by_cases h2 : c = x
      · rw [if_pos h2]
        subst h2
        simp only [List.mem_cons]
        tauto
      · rw [if_neg h2]
        simp only [List.mem_cons, ih]
        tauto

lemma mem_clearFold (ct : Nat → CardState) (l : List Nat) :
    ∀ (init : List Nat) (c : Nat),
      c ∈ l.foldl (fun a k => ModUnionClearCardSetVisitor a k (ct k) (AgeCardVisitor (ct k))) init ↔
        c ∈ init ∨ (c ∈ l ∧ ct c = CardState.dirty) := by
  induction l with
  | nil => simp
  | cons k l ih =>
    intro init c
    rw [List.foldl_cons, ih]
    unfold ModUnionClearCardSetVisitor
    by_cases hk : ct k = CardState.dirty
    · rw [if_pos hk]
      simp only [mem_cardSetInsert, List.mem_cons]
      by_cases hc : c = k
      · subst hc
        simp [hk]
      · simp only [hc, false_or]
    · rw [if_neg hk]
      simp only [List.mem_cons]
      constructor
      · rintro (h | ⟨h1, h2⟩)
        · exact Or.inl h
        · exact Or.inr ⟨Or.inr h1, h2⟩
      · rintro (h | ⟨h1 | h1, h2⟩)
        · exact Or.inl h
        · subst h1
          exact absurd h2 hk
        · exact Or.inr ⟨h1, h2⟩

/-- C1: after ClearCards (either variant), a card is in cleared_cards iff it
was there before the call or its card-table byte was observed Dirty during
the atomic transform over the source region's card range; cards observed in
any other state are not added. -/
theorem ClearCards_cleared_iff (st : MUState) (c : Nat) :
    (c ∈ (ModUnionTableReferenceCache.ClearCards st).cleared ↔
      c ∈ st.cleared ∨
        (c ∈ cardsInRange st.spaceBegin st.spaceEnd ∧ st.cardTable c = CardState.dirty)) ∧
    (c ∈ (ModUnionTableCardCache.ClearCards st).cleared ↔
      c ∈ st.cleared ∨
        (c ∈ cardsInRange st.spaceBegin st.spaceEnd ∧ st.cardTable c = CardState.dirty)) := by
  constructor <;>
    exact mem_clearFold st.cardTable (cardsInRange st.spaceBegin st.spaceEnd) st.cleared c

lemma refsLookup_refsSet_self (r : List (Nat × List Nat)) (c : Nat) (v : List Nat) :
    refsLookup (refsSet r c v) c = some v := by
  induction r with
  | nil => simp [refsSet, refsLookup]
  | cons p ps ih =>
    unfold refsSet
    by_cases h1 : c < p.1
    · rw [if_pos h1]
      simp [refsLookup]
    · rw [if_neg h1]
      by_cases h2 : c = p.1
      · rw [if_pos h2]
        simp [refsLookup]
      · rw [if_neg h2]
        unfold refsLookup
        rw [if_neg fun hh => h2 hh.symm]
        exact ih

lemma refsLookup_refsSet_ne (r : List (Nat × List Nat)) (c c2 : Nat) (v : List Nat)
    (h : c2 ≠ c) : refsLookup (refsSet r c v) c2 = refsLookup r c2 := by
  induction r with
  | nil =>
    unfold refsSet refsLookup
    rw [if_neg (Ne.symm h)]
    rfl
  | cons p ps ih =>
    unfold refsSet
    by_cases h1 : c < p.1
    · rw [if_pos h1]
      unfold refsLookup
      rw [if_neg (Ne.symm h)]
      rfl
    · rw [if_neg h1]
      by_cases h2 : c = p.1
      · rw [if_pos h2]
        unfold refsLookup
        rw [if_neg (Ne.symm h), if_neg (h2 ▸ Ne.symm h)]
      · rw [if_neg h2]
        unfold refsLookup
        by_cases h3 : p.1 = c2
        · rw [if_pos h3, if_pos h3]
        · rw [if_neg h3, if_neg h3]
          exact ih

lemma updateCardEntry_self (r : List (Nat × List Nat)) (c : Nat) (v : List Nat) :
    (refsLookup (updateCardEntry r c v) c).getD [] = v := by
  unfold updateCardEntry
  cases h : refsLookup r c with
  | none =>
    by_cases hv : v = []
    · subst hv
      simp [h]
    · simp [hv, refsLookup_refsSet_self]
  | some w => simp [refsLookup_refsSet_self]

lemma updateCardEntry_other (r : List (Nat × List Nat)) (c c2 : Nat) (v : List Nat)
    (h : c2 ≠ c) : refsLookup (updateCardEntry r c v) c2 = refsLookup r c2 := by
  unfold updateCardEntry
  cases hl : refsLookup r c with
  | none =>
    by_cases hv : v = []
    · simp [hv]
    · simp [hv, refsLookup_refsSet_ne _ _ _ _ h]
  | some w => simp [refsLookup_refsSet_ne _ _ _ _ h]

lemma foldl_update_not_mem (st : MUState) (l : List Nat) :
    ∀ (r : List (Nat × List Nat)) (c : Nat), c ∉ l →
      refsLookup (l.foldl (fun r card => updateCardEntry r card (cardRefs st card)) r) c
        = refsLookup r c := by
  induction l with
  | nil =>
    intro r c _
    rfl
  | cons k l ih =>
    intro r c hc
    rw [List.foldl_cons, ih _ _ fun h => hc (List.mem_cons_of_mem _ h)]
    exact updateCardEntry_other _ _ _ _ fun h => hc (h ▸ List.mem_cons_self _ _)

lemma foldl_update_mem (st : MUState) (l : List Nat) :
    ∀ (r : List (Nat × List Nat)) (c : Nat), c ∈ l →
      (refsLookup (l.foldl (fun r card => updateCardEntry r card (cardRefs st card)) r) c).getD []
        = cardRefs st c := by
  induction l with
  | nil =>
    intro r c hc
    cases hc
  | cons k l ih =>
    intro r c hc
    rw [List.foldl_cons]
    by_cases h : c ∈ l
    · exact ih _ _ h
    · have hck : c = k := by
        rcases List.mem_cons.mp hc with h1 | h1
        · exact h1
        · exact absurd h1 h
      subst hck
      rw [foldl_update_not_mem st l _ _ h]
      exact updateCardEntry_self _ _ _

/-- C2: for every card pending in cleared_cards when the reference-cache
variant's UpdateAndMarkReferences starts, the entry of the references map
after the call is exactly the freshly recomputed reference array of that
card; a prior entry is replaced, never appended to. -/
theorem UpdateAndMarkReferences_replaces_entry (st : MUState) (visitor : Nat → Nat)
    (card : Nat) (h : card ∈ st.cleared) :
    (refsLookup (ModUnionTableReferenceCache.UpdateAndMarkReferences visitor st).references
        card).getD [] = cardRefs st card :=
  foldl_update_mem st st.cleared st.references card h

/-- Witness for the C2 theorem at the concrete sample state: card 1 is
pending, its stale entry [40] is replaced by the recomputed array. -/
theorem UpdateAndMarkReferences_replaces_entry_witness :
    (refsLookup (ModUnionTableReferenceCache.UpdateAndMarkReferences (fun o => o)
        sampleMU).references 1).getD [] = cardRefs sampleMU 1 :=
  UpdateAndMarkReferences_replaces_entry sampleMU (fun o => o) 1 (by decide)

/-- C3: the reference-cache variant's UpdateAndMarkReferences leaves
cleared_cards empty, so every card cleared by a preceding ClearCards is
absent from it once the cycle completes. -/
theorem UpdateAndMarkReferences_empties_cleared (st : MUState) (visitor : Nat → Nat) :
    (ModUnionTableReferenceCache.UpdateAndMarkReferences visitor st).cleared = [] :=
  rfl

/-- C4: a second UpdateAndMarkReferences on the reference-cache variant with
no intervening ClearCards (cleared_cards is empty after the first call)
produces the same references map as the first call. -/
theorem UpdateAndMarkReferences_idempotent (st : MUState) (visitor : Nat → Nat) :
    (ModUnionTableReferenceCache.UpdateAndMarkReferences visitor
        (ModUnionTableReferenceCache.UpdateAndMarkReferences visitor st)).references
      = (ModUnionTableReferenceCache.UpdateAndMarkReferences visitor st).references :=
  rfl

/-- C6: AllocWithGrowth raises the footprint limit to Capacity(), performs
the allocation, then sets the limit to the allocator's self-reported
footprint right after the allocation; GetFootprintLimit immediately
afterwards returns exactly that footprint — which is also the realized
footprint of the resulting space, so the limit is never left at the raised
capacity and never lies below the realized footprint. -/
theorem AllocWithGrowth_footprintLimit (sp : RosAllocSpace)
    (allocFn : Nat → RosAlloc → Option Nat × RosAlloc) (numBytes : Nat) :
    (sp.AllocWithGrowth allocFn numBytes).2.GetFootprintLimit
        = (allocFn numBytes (sp.rosalloc.SetFootprintLimit sp.Capacity)).2.Footprint ∧
    (sp.AllocWithGrowth allocFn numBytes).2.GetFootprintLimit
        = (sp.AllocWithGrowth allocFn numBytes).2.GetFootprint :=
  ⟨rfl, rfl⟩

/-- C7: RosAllocSpace::SetFootprintLimit(x) sets the allocator's footprint
limit to max(x, current realized footprint): a request below the footprint
is clamped up to it, and the limit never ends below the footprint. -/
theorem SetFootprintLimit_clamps (sp : RosAllocSpace) (x : Nat) :
    (sp.SetFootprintLimit x).GetFootprintLimit = max x sp.GetFootprint := by
  simp only [RosAllocSpace.SetFootprintLimit, RosAllocSpace.GetFootprintLimit,
    RosAllocSpace.GetFootprint, RosAlloc.SetFootprintLimit, RosAlloc.Footprint,
    RosAlloc.FootprintLimit]
  split <;> omega

/-- C9: when the backing mem map cannot be created, or the underlying
allocator cannot be initialized, RosAllocSpace::Create returns a logged null
region — in particular it is not the fatal (aborting) outcome. -/
theorem Create_null_on_failure (memMapResult : Option Nat) (newResult : Option RosAlloc)
    (mprotectOk : Bool) (initialSize growthLimit capacity : Nat)
    (h : memMapResult = none ∨ newResult = none) :
    ∃ msg, RosAllocSpace.Create memMapResult newResult mprotectOk initialSize growthLimit
        capacity = CreateResult.nullSpace msg := by
  rcases h with h | h
  · subst h
    exact ⟨_, rfl⟩
  · subst h
    cases memMapResult with
    | none => exact ⟨_, rfl⟩
    | some b => exact ⟨_, rfl⟩

/-- Witness for the C9 theorem: a failed mem map creation yields the logged
null region. -/
theorem Create_null_on_failure_witness :
    ∃ msg, RosAllocSpace.Create none (some { footprint := 0, footprintLimit := 0 }) true
        4096 8192 8192 = CreateResult.nullSpace msg :=
  Create_null_on_failure none (some { footprint := 0, footprintLimit := 0 }) true
    4096 8192 8192 (Or.inl rfl)

/-- C5: Verify passes (returns true, i.e. does not reach the fatal abort)
exactly when every slot recorded in the references map holds a reference to
a live (marked) object, and for every recorded card whose card-table byte is
Clean, every qualifying (non-null, AddReference-accepted) reference
re-derived from the live objects under that card is among the entry's
recorded referents; otherwise the process logs, dumps the spaces and aborts
fatally. -/
theorem Verify_passes_iff (st : MUState) :
    ModUnionTableReferenceCache.Verify st = true ↔
      ((∀ p ∈ st.references, ∀ slot ∈ p.2, st.heapLive (st.heap slot) = true) ∧
       (∀ p ∈ st.references, st.cardTable p.1 = CardState.clean →
         ∀ o ∈ liveInCard st p.1, ∀ off ∈ st.fields o,
           st.heap (o + off) ≠ 0 → st.addRef o (st.heap (o + off)) = true →
             st.heap (o + off) ∈ p.2.map st.heap)) := by
  unfold ModUnionTableReferenceCache.Verify
  rw [Bool.and_eq_true]
  refine and_congr ?_ ?_
  · rw [List.all_eq_true]
    refine forall_congr' fun p => imp_congr_right fun _ => ?_
    rw [List.all_eq_true]
  · rw [List.all_eq_true]
    refine forall_congr' fun p => imp_congr_right fun _ => ?_
    by_cases hc : st.cardTable p.1 = CardState.clean
    · rw [if_pos hc, List.all_eq_true]
      constructor
      · intro h _ o ho off hoff h0 ha
        have h2 := List.all_eq_true.mp (h o ho) off hoff
        rw [Bool.not_eq_true', decide_eq_false_iff_not] at h2
        by_contra hmem
        exact h2 ⟨h0, ha, hmem⟩
      · intro h o ho
        rw [List.all_eq_true]
        intro off hoff
        rw [Bool.not_eq_true', decide_eq_false_iff_not]
        rintro ⟨h0, ha, hmem⟩
        exact hmem (h hc o ho off hoff h0 ha)
    · rw [if_neg hc]
      simp [hc]

lemma pairwise_cardSetInsert (s : List Nat) (c : Nat)
    (h : s.Pairwise (· < ·)) : (cardSetInsert s c).Pairwise (· < ·) := by
  induction s with
  | nil => simp [cardSetInsert]
  | cons x xs ih =>
    rw [List.pairwise_cons] at h
    unfold cardSetInsert
    by_cases h1 : c < x
    · rw [if_pos h1]
      refine List.Pairwise.cons ?_ (List.Pairwise.cons h.1 h.2)
      intro b hb
      rcases List.mem_cons.mp hb with rfl | hb2
      · exact h1
      · exact h1.trans (h.1 b hb2)
    · rw [if_neg h1]
      by_cases h2 : c = x
      · rw [if_pos h2]
        exact List.Pairwise.cons h.1 h.2
      · rw [if_neg h2]
        refine List.Pairwise.cons ?_ (ih h.2)
        intro b hb
        rcases (mem_cardSetInsert xs c b).mp hb with rfl | hb2
        · omega
        · exact h.1 b hb2

lemma pairwise_clearFold (ct : Nat → CardState) (l : List Nat) :
    ∀ init : List Nat, init.Pairwise (· < ·) →
      (l.foldl (fun a k => ModUnionClearCardSetVisitor a k (ct k) (AgeCardVisitor (ct k)))
          init).Pairwise (· < ·) := by
  induction l with
  | nil =>
    intro init h
    exact h
  | cons k l ih =>
    intro init h
    rw [List.foldl_cons]
    apply ih
    unfold ModUnionClearCardSetVisitor
    by_cases hk : ct k = CardState.dirty
    · rw [if_pos hk]
      exact pairwise_cardSetInsert _ _ h
    · rw [if_neg hk]
      exact h

/-- C8 counterexample: the card-cache variant's cleared_cards is not an
ordered-by-discovery list.  Dirty card 1, run ClearCards (discovering card
1), dirty card 1 again, run ClearCards (discovering card 1 a second time):
the discovery sequence is [1, 1] but cleared_cards holds [1] — the CardSet
deduplicates, so iteration does not replay discovery order. -/
theorem CardCache_cleared_not_discovery_order :
    ¬ ((ModUnionTableCardCache.ClearCards (markCard
          (ModUnionTableCardCache.ClearCards (markCard sampleCardCache 600)) 600)).cleared
        = dirtyCardsInRange (markCard sampleCardCache 600) ++
          dirtyCardsInRange (markCard
            (ModUnionTableCardCache.ClearCards (markCard sampleCardCache 600)) 600)) := by
  decide

/-- C8 amended: the card-cache variant keeps cleared_cards as the same
key-unique CardSet the reference-cache variant uses, iterated in increasing
card-address order: after any ClearCards call the collection is strictly
sorted (hence duplicate-free), and holds a card exactly when it was held
before or was observed Dirty in the source region during the call. -/
theorem CardCache_ClearCards_sorted_set (st : MUState)
    (h : st.cleared.Pairwise (· < ·)) :
    ((ModUnionTableCardCache.ClearCards st).cleared.Pairwise (· < ·)) ∧
    (∀ c, c ∈ (ModUnionTableCardCache.ClearCards st).cleared ↔
      c ∈ st.cleared ∨
        (c ∈ cardsInRange st.spaceBegin st.spaceEnd ∧ st.cardTable c = CardState.dirty)) :=
  ⟨pairwise_clearFold st.cardTable (cardsInRange st.spaceBegin st.spaceEnd) st.cleared h,
   fun c => mem_clearFold st.cardTable (cardsInRange st.spaceBegin st.spaceEnd) st.cleared c⟩

/-- Witness for the amended C8 theorem at the concrete sample state. -/
theorem CardCache_ClearCards_sorted_set_witness :
    ((ModUnionTableCardCache.ClearCards sampleCardCache).cleared.Pairwise (· < ·)) ∧
    (∀ c, c ∈ (ModUnionTableCardCache.ClearCards sampleCardCache).cleared ↔
      c ∈ sampleCardCache.cleared ∨
        (c ∈ cardsInRange sampleCardCache.spaceBegin sampleCardCache.spaceEnd ∧
          sampleCardCache.cardTable c = CardState.dirty)) :=
  CardCache_ClearCards_sorted_set sampleCardCache (by simp [sampleCardCache])

lemma zero_notin_markVisitStep (visitor : Nat → Nat) (acc : (Nat → Nat) × List Nat)
    (slot : Nat) (h : 0 ∉ acc.2) : 0 ∉ (markVisitStep visitor acc slot).2 := by
  unfold markVisitStep
  by_cases h0 : acc.1 slot ≠ 0
  · rw [if_pos h0]
    intro hmem
    rcases List.mem_append.mp hmem with hm | hm
    · exact h hm
    · rcases List.mem_singleton.mp hm with hz
      exact h0 hz.symm
  · rw [if_neg h0]
    exact h

lemma zero_notin_foldl_of_preserve {β : Type}
    (g : (Nat → Nat) × List Nat → β → (Nat → Nat) × List Nat)
    (hg : ∀ acc b, 0 ∉ acc.2 → 0 ∉ (g acc b).2) (l : List β) :
    ∀ acc, 0 ∉ acc.2 → 0 ∉ (l.foldl g acc).2 := by
  induction l with
  | nil =>
    intro acc h
    exact h
  | cons b bs ih =>
    intro acc h
    rw [List.foldl_cons]
    exact ih _ (hg _ _ h)

lemma mem_cardRefs (st : MUState) (card slot : Nat) (h : slot ∈ cardRefs st card) :
    st.heap slot ≠ 0 ∧ ∃ o ∈ liveInCard st card, ∃ off ∈ st.fields o,
      slot = o + off ∧ st.addRef o (st.heap slot) = true := by
  unfold cardRefs at h
  rcases List.mem_flatMap.mp h with ⟨o, ho, hslot⟩
  rcases List.mem_filterMap.mp hslot with ⟨off, hoff, heq⟩
  by_cases hc : st.heap (o + off) ≠ 0 ∧ st.addRef o (st.heap (o + off))
  · rw [if_pos hc] at heq
    have hs : slot = o + off := (Option.some_inj.mp heq).symm
    subst hs
    exact ⟨hc.1, o, ho, off, hoff, rfl, hc.2⟩
  · rw [if_neg hc] at heq
    cases heq

/-- C10: during UpdateAndMarkReferences a null reference is never acted on.
In the reference-cache recomputation a slot is recorded only when the stored
reference is non-null and AddReference accepts it for some live object of
the card; and in both variants' visiting passes the supplied RootVisitor is
never invoked on a null (0) reference. -/
theorem UpdateAndMark_never_null (st : MUState) (visitor : Nat → Nat) :
    (∀ card slot, slot ∈ cardRefs st card →
        st.heap slot ≠ 0 ∧ ∃ o ∈ liveInCard st card, ∃ off ∈ st.fields o,
          slot = o + off ∧ st.addRef o (st.heap slot) = true) ∧
    (0 : Nat) ∉ (ModUnionTableReferenceCache.UpdateAndMarkReferencesTrace visitor st).2 ∧
    (0 : Nat) ∉ (ModUnionTableCardCache.UpdateAndMarkReferencesTrace visitor st).2 := by
  refine ⟨fun card slot h => mem_cardRefs st card slot h, ?_, ?_⟩
  · show (0 : Nat) ∉ (markVisitPass visitor _ st.heap).2
    unfold markVisitPass
    refine zero_notin_foldl_of_preserve _ ?_ _ _ (by simp)
    intro acc p hacc
    exact zero_notin_foldl_of_preserve _
      (fun a s ha => zero_notin_markVisitStep visitor a s ha) p.2 acc hacc
  · unfold ModUnionTableCardCache.UpdateAndMarkReferencesTrace
    refine zero_notin_foldl_of_preserve _ ?_ _ _ (by simp)
    intro acc card hacc
    refine zero_notin_foldl_of_preserve _ ?_ _ _ hacc
    intro acc2 o hacc2
    exact zero_notin_foldl_of_preserve _
      (fun a off ha => zero_notin_markVisitStep visitor a (o + off) ha) _ _ hacc2

end ArtGC
